import Mathlib

/-!
Verification of the scrub-orchestration logic of `qa/tasks/fwd_scrub.py`
(`MDSRankScrubber`, `ForwardScrubber`, `stop_all_fwd_scrubbers`, `task`).

The embedding follows the Python source.  Remote calls (`rank_tell`) are
modelled by oracles: the start response is a value of `Option StartResponse`
(with `none` for an absent response) and the status polls are a stream
`Nat → PollResponse`.  Exceptions of the Python code become explicit error
values: the `assert`/`KeyError` failures of the start-response validation are
the spec's `ProtocolError`; the `KeyError` raised by `out_json['scrubs'][tag]`
when the tag is absent is `scrubsKeyError`; `CommandFailedError` raised by the
transport is the `cmdFailed` poll response (caught and retried by the code).
-/

/-- The JSON object returned by `scrub start`.  `scrub_tag = none` models a
`scrub_tag` field that is missing or `null` (both abort `do_scrub`: a missing
key raises `KeyError`, a `null` one fails `assert tag is not None`). -/
structure StartResponse where
  scrub_tag : Option String
  return_code : Int
  mode : String
deriving DecidableEq

/-- The JSON object returned by `scrub status`: a `status` string and the
`scrubs` mapping from tag to its status (a tag mapped to `none` models a JSON
`null` status). -/
structure StatusResponse where
  status : String
  scrubs : List (String × Option String)
deriving DecidableEq

/-- One status poll either raises `CommandFailedError` at the transport level
or returns a status object. -/
inductive PollResponse where
  | cmdFailed
  | ok (r : StatusResponse)
deriving DecidableEq

/-- Errors escaping `do_scrub`.  `protocolError` collects the start-response
validation failures (`assert out_json is not None`, missing/None tag,
`return_code != 0`, `mode != 'asynchronous'`); `scrubsKeyError` is the
`KeyError` from `out_json['scrubs'][tag]` during a status poll. -/
inductive ScrubError where
  | protocolError
  | scrubsKeyError
deriving DecidableEq

/-- Normal terminations of `wait_until_scrub_complete`: the scrub was seen to
complete, or the attempt budget ran out (logged, not raised). -/
inductive WaitOutcome where
  | completed
  | timedOut
deriving DecidableEq

/-- Python dict lookup on the `scrubs` mapping: `none` models a `KeyError`
(key absent), `some v` the stored value. -/
def dictGet (k : String) : List (String × Option String) → Option (Option String)
  | [] => none
  | (k₁, v) :: rest => if k₁ = k then some v else dictGet k rest

/-- What one iteration of the polling loop body does with one response. -/
inductive PollStep where
  | completed
  | continuePolling
  | raiseKeyError
deriving DecidableEq

/-- One body execution of the `while proceed()` loop in
`wait_until_scrub_complete`: a `CommandFailedError` is caught, logged and
retried; `status == "no active scrubs running"` returns; otherwise
`out_json['scrubs'][tag]` is read — `KeyError` if the tag is absent, return
(completed) if it is `null`, keep polling if it is a real status. -/
def pollStep (tag : String) : PollResponse → PollStep
  | .cmdFailed => .continuePolling
  | .ok r =>
    if r.status = "no active scrubs running" then .completed
    else
      match dictGet tag r.scrubs with
      | none => .raiseKeyError
      | some none => .completed
      | some (some _) => .continuePolling

/-- Modelled from the spec: `teuthology.contextutil.safe_while` is not part of
this repository, so its iteration discipline is taken from the spec — the
budget `sleep=30, tries=scrub_timeout//30` gives `scrub_timeout // 30` loop
body executions, and exhausting it ends the loop as a non-fatal timeout
("timed out waiting for scrub to complete" is logged, nothing is raised).
`waitLoop tag responses fuel polls` runs up to `fuel` more attempts, having
already issued `polls` polls; it returns the outcome together with the total
number of status polls issued. -/
def waitLoop (tag : String) (responses : Nat → PollResponse) :
    Nat → Nat → Except ScrubError WaitOutcome × Nat
  | 0, polls => (.ok .timedOut, polls)
  | fuel + 1, polls =>
    match pollStep tag (responses polls) with
    | .completed => (.ok .completed, polls + 1)
    | .raiseKeyError => (.error .scrubsKeyError, polls + 1)
    | .continuePolling => waitLoop tag responses fuel (polls + 1)

/-- `MDSRankScrubber.wait_until_scrub_complete(tag)` with attempt budget
`tries` (= `scrub_timeout // 30` at the call site) against the poll stream
`responses`. -/
def waitUntilScrubComplete (tag : String) (tries : Nat)
    (responses : Nat → PollResponse) : Except ScrubError WaitOutcome × Nat :=
  waitLoop tag responses tries 0

/-- `MDSRankScrubber.do_scrub`: validate the start response exactly as the
source does (`assert out_json is not None`; read `scrub_tag`;
`assert tag is not None`; `assert return_code == 0`;
`assert mode == 'asynchronous'`), then poll.  Returns the outcome together
with the number of status polls issued. -/
def doScrub (start : Option StartResponse) (scrub_timeout : Nat)
    (responses : Nat → PollResponse) : Except ScrubError WaitOutcome × Nat :=
  match start with
  | none => (.error .protocolError, 0)
  | some r =>
    match r.scrub_tag with
    | none => (.error .protocolError, 0)
    | some tag =>
      if r.return_code = 0 then
        if r.mode = "asynchronous" then
          waitUntilScrubComplete tag (scrub_timeout / 30) responses
        else (.error .protocolError, 0)
      else (.error .protocolError, 0)

/-- A malformed start response in the sense of the spec: absent, missing or
null tag, non-zero return code, or a mode other than "asynchronous". -/
def malformedStart : Option StartResponse → Prop
  | none => True
  | some r => r.scrub_tag = none ∨ r.return_code ≠ 0 ∨ r.mode ≠ "asynchronous"

/-- Claim C1: for every malformed start response (missing scrub tag, non-zero
`return_code`, or mode different from "asynchronous"), `do_scrub` fails with
the protocol error and issues zero status polls — it never enters the polling
loop. -/
theorem doScrub_malformed_protocolError (start : Option StartResponse)
    (scrub_timeout : Nat) (responses : Nat → PollResponse)
    (h : malformedStart start) :
    doScrub start scrub_timeout responses = (.error .protocolError, 0) := by
  match start with
  | none => rfl
  | some r =>
    rcases h with htag | hrc | hmode
    · simp [doScrub, htag]
    · match hst : r.scrub_tag with
      | none => simp [doScrub, hst]
      | some tag => simp [doScrub, hst, hrc]
    · match hst : r.scrub_tag with
      | none => simp [doScrub, hst]
      | some tag =>
        by_cases hrc : r.return_code = 0
        · simp [doScrub, hst, hrc, hmode]
        · simp [doScrub, hst, hrc]

/-- Concrete instance of C1: a start response with `return_code = 1` is
rejected with zero polls. -/
theorem doScrub_malformed_protocolError_wit :
    doScrub (some ⟨some "t2", 1, "asynchronous"⟩) 300 (fun _ => .cmdFailed)
      = (.error .protocolError, 0) :=
  doScrub_malformed_protocolError (some ⟨some "t2", 1, "asynchronous"⟩) 300
    (fun _ => .cmdFailed) (Or.inr (Or.inl (by decide)))

/-- Claim C2, counterexample: a status poll whose `status` is not
"no active scrubs running" and whose `scrubs` mapping does not contain the tag
does NOT return success — `out_json['scrubs'][tag]` raises `KeyError`, which
escapes `wait_until_scrub_complete` (only `CommandFailedError` is caught). -/
theorem wait_tag_absent_keyError_cex :
    waitUntilScrubComplete "t1" 10 (fun _ => .ok ⟨"scrub is ongoing", []⟩)
      = (.error .scrubsKeyError, 1) := by
  rfl

/-- Claim C2, amended: for a status-poll response whose `status` is not
"no active scrubs running", `wait_until_scrub_complete` treats the scrub as
completed and returns success when the active-scrubs mapping maps the tag to
`null`; when the mapping does not contain the tag at all, a `KeyError`
escapes instead (later captured as the unit's failure). -/
theorem wait_tag_null_completed_amended (tag : String) (r : StatusResponse)
    (tries : Nat) (hst : r.status ≠ "no active scrubs running") :
    (dictGet tag r.scrubs = some none →
      waitUntilScrubComplete tag (tries + 1) (fun _ => .ok r)
        = (.ok .completed, 1)) ∧
    (dictGet tag r.scrubs = none →
      waitUntilScrubComplete tag (tries + 1) (fun _ => .ok r)
        = (.error .scrubsKeyError, 1)) := by
  constructor
  · intro hget
    simp [waitUntilScrubComplete, waitLoop, pollStep, hst, hget]
  · intro hget
    simp [waitUntilScrubComplete, waitLoop, pollStep, hst, hget]

/-- Concrete instance of the amended C2: a mapping holding `t1 ↦ null`
completes on the first poll, and an empty mapping raises. -/
theorem wait_tag_null_completed_amended_wit :
    waitUntilScrubComplete "t1" 10 (fun _ => .ok ⟨"busy", [("t1", none)]⟩)
        = (.ok .completed, 1) ∧
    waitUntilScrubComplete "t1" 10 (fun _ => .ok ⟨"busy", []⟩)
        = (.error .scrubsKeyError, 1) :=
  ⟨(wait_tag_null_completed_amended "t1" ⟨"busy", [("t1", none)]⟩ 9
      (by decide)).1 (by decide),
   (wait_tag_null_completed_amended "t1" ⟨"busy", []⟩ 9
      (by decide)).2 (by decide)⟩

/-- In a stream where every poll keeps the loop going, the budget is spent
one poll per attempt and the wait times out. -/
theorem waitLoop_all_continue (tag : String) (responses : Nat → PollResponse)
    (h : ∀ i, pollStep tag (responses i) = .continuePolling) :
    ∀ fuel polls, waitLoop tag responses fuel polls = (.ok .timedOut, polls + fuel) := by
  intro fuel
  induction fuel with
  | zero => intro polls; simp [waitLoop]
  | succ n ih =>
    intro polls
    rw [waitLoop, h polls, ih (polls + 1)]
    ring_nf

/-- Claim C3: if the tag never disappears from the active-scrubs mapping
(every poll returns a status object that is not "no active scrubs running"
and maps the tag to a real status), `wait_until_scrub_complete` performs
exactly `scrub_timeout // 30` poll attempts, then logs a timeout and returns
normally without raising. -/
theorem wait_tag_persists_timeout (tag : String) (scrub_timeout : Nat)
    (responses : Nat → PollResponse)
    (h : ∀ i, ∃ r st, responses i = .ok r ∧
        r.status ≠ "no active scrubs running" ∧
        dictGet tag r.scrubs = some (some st)) :
    waitUntilScrubComplete tag (scrub_timeout / 30) responses
      = (.ok .timedOut, scrub_timeout / 30) := by
  have hcont : ∀ i, pollStep tag (responses i) = .continuePolling := by
    intro i
    obtain ⟨r, st, hr, hst, hget⟩ := h i
    simp [pollStep, hr, hst, hget]
  have := waitLoop_all_continue tag responses hcont (scrub_timeout / 30) 0
  simpa [waitUntilScrubComplete] using this

/-- Concrete instance of C3: with `scrub_timeout = 300` and a tag that stays
active forever, exactly 10 polls are made and the wait times out. -/
theorem wait_tag_persists_timeout_wit :
    waitUntilScrubComplete "t1" (300 / 30)
        (fun _ => .ok ⟨"busy", [("t1", some "scrubbing")]⟩)
      = (.ok .timedOut, 300 / 30) :=
  wait_tag_persists_timeout "t1" 300
    (fun _ => .ok ⟨"busy", [("t1", some "scrubbing")]⟩)
    (fun _ => ⟨⟨"busy", [("t1", some "scrubbing")]⟩, "scrubbing", rfl,
      by decide, rfl⟩)

/-- Claim C8: a transport-level `CommandFailedError` during a status poll is
caught, logged and retried on the next interval (`pollStep` keeps polling),
and such transient failures alone never make the wait raise: a stream of
nothing but transport failures ends in the non-raising timeout after the
budget is spent, so `do_scrub` neither raises nor records a failure because
of them. -/
theorem poll_cmdFailed_retries (tag : String) (tries : Nat)
    (responses : Nat → PollResponse)
    (h : ∀ i, responses i = .cmdFailed) :
    pollStep tag .cmdFailed = .continuePolling ∧
    waitUntilScrubComplete tag tries responses = (.ok .timedOut, tries) := by
  refine ⟨rfl, ?_⟩
  have hcont : ∀ i, pollStep tag (responses i) = .continuePolling := by
    intro i; rw [h i]; rfl
  have := waitLoop_all_continue tag responses hcont tries 0
  simpa [waitUntilScrubComplete] using this

/-- Concrete instance of C8: ten polls that all fail at the transport level
produce a plain timeout, not an error. -/
theorem poll_cmdFailed_retries_wit :
    pollStep "t1" .cmdFailed = .continuePolling ∧
    waitUntilScrubComplete "t1" 10 (fun _ => .cmdFailed)
      = (.ok .timedOut, 10) :=
  poll_cmdFailed_retries "t1" 10 (fun _ => .cmdFailed) (fun _ => rfl)

/-- One greenlet handle held in `ForwardScrubber.scrubbers`; `cancelled`
records whether `gevent.killall` has cancelled it. -/
structure ScrubberUnit where
  uid : Nat
  cancelled : Bool
deriving DecidableEq

/-- The mutable state of a `ForwardScrubber`: the `stopping` event flag, the
in-flight `scrubbers` list, the captured thrasher exception, and the two
configuration values stored by `__init__`. -/
structure FwdState where
  stopping : Bool
  scrubbers : List ScrubberUnit
  exception : Option String
  scrub_timeout : Nat
  sleep_between_iterations : Nat
deriving DecidableEq

/-- `ForwardScrubber.stop`: set the `stopping` event, then under the lock
`killall` every in-flight scrubber (modelled as marking each one cancelled;
`killall` of an empty or already-killed list is a no-op).  The function is
total: `stop` itself raises nothing. -/
def fwdStop (s : FwdState) : FwdState :=
  { s with stopping := true,
           scrubbers := s.scrubbers.map fun u => { u with cancelled := true } }

/-- Cancelling every unit twice is the same as cancelling it once. -/
theorem cancel_map_idem (xs : List ScrubberUnit) :
    ((xs.map fun u => { u with cancelled := true }).map
        fun u => { u with cancelled := true })
      = xs.map fun u => { u with cancelled := true } := by
  induction xs with
  | nil => rfl
  | cons x xs ih => simp [ih]

/-- After the cancellation pass, every unit is cancelled. -/
theorem cancel_all_true (xs : List ScrubberUnit) :
    ((xs.map fun u => { u with cancelled := true }).all
        fun u => u.cancelled) = true := by
  induction xs with
  | nil => rfl
  | cons x xs ih => simp [ih]

/-- Claim C6: for every coordinator state (zero or more in-flight units),
calling `stop` twice yields the same end state as calling it once; after a
`stop` the stopping flag is set and every in-flight unit is cancelled.
`fwdStop` is a total function, so `stop` never raises. -/
theorem stop_idempotent_cancels_all (s : FwdState) :
    fwdStop (fwdStop s) = fwdStop s ∧
    (fwdStop s).stopping = true ∧
    ((fwdStop s).scrubbers.all fun u => u.cancelled) = true := by
  refine ⟨?_, rfl, cancel_all_true s.scrubbers⟩
  cases s
  simp [fwdStop, cancel_map_idem]

/-- One `MDSRankScrubber` greenlet as seen by the coordinator after the join:
its rank and the exception it captured (if any). -/
structure RankUnit where
  rank : Nat
  exception : Option String
deriving DecidableEq

/-- Observable steps of one iteration of `ForwardScrubber.do_scrub`. -/
inductive CEvent where
  | construct (r : Nat)
  | append (r : Nat)
  | start (r : Nat)
  | joinAll
  | inspect (r : Nat)
  | clearList
  | sleepBetween
deriving DecidableEq

/-- The fan-out `for r in ranks` loop of `do_scrub`: construct an
`MDSRankScrubber`, append it to `self.scrubbers` under the lock, and start
it — one triple of events per rank, in rank order.  The oracle `exc` gives
the exception each unit will have captured by the time `joinall` returns. -/
def launchPhase (exc : Nat → Option String) :
    List Nat → List RankUnit × List CEvent
  | [] => ([], [])
  | r :: rs =>
    (⟨r, exc r⟩ :: (launchPhase exc rs).1,
     .construct r :: .append r :: .start r :: (launchPhase exc rs).2)

/-- The `for s in self.scrubbers` check after the join: inspect each unit's
exception in order; at the first non-`None` one, `RuntimeError('error during
scrub thrashing')` is raised (the returned flag) and no further unit is
inspected. -/
def inspectPhase : List RankUnit → List CEvent × Bool
  | [] => ([], false)
  | u :: us =>
    match u.exception with
    | some _ => ([.inspect u.rank], true)
    | none => (.inspect u.rank :: (inspectPhase us).1, (inspectPhase us).2)

/-- One iteration of the main loop of `ForwardScrubber.do_scrub`, starting
from an empty `self.scrubbers` list: fan out one scrubber per discovered
rank, `joinall`, inspect the units' exceptions, and — only when none failed —
clear the list and sleep.  Returns the `self.scrubbers` list as the iteration
ends, whether the iteration raised `RuntimeError`, and the event trace.
When the `RuntimeError` is raised the `clear()` at line 148 of the source is
never reached, so the list still holds the launched units. -/
def doScrubIteration (ranks : List Nat) (exc : Nat → Option String) :
    List RankUnit × Bool × List CEvent :=
  if (inspectPhase (launchPhase exc ranks).1).2 then
    ((launchPhase exc ranks).1, true,
     (launchPhase exc ranks).2
       ++ CEvent.joinAll :: (inspectPhase (launchPhase exc ranks).1).1)
  else
    ([], false,
     (launchPhase exc ranks).2
       ++ CEvent.joinAll :: (inspectPhase (launchPhase exc ranks).1).1
       ++ [CEvent.clearList, CEvent.sleepBetween])

/-- Claim C5, counterexample: an iteration that ends by raising the
coordination-level `RuntimeError` leaves the in-flight list non-empty — the
failed unit is still in `self.scrubbers` because the raise happens before
`self.scrubbers.clear()`. -/
theorem iteration_raise_nonempty_cex :
    (doScrubIteration [0] fun _ => some "scrub failure").2.1 = true ∧
    (doScrubIteration [0] fun _ => some "scrub failure").1
      = [⟨0, some "scrub failure"⟩] ∧
    (doScrubIteration [0] fun _ => some "scrub failure").1 ≠ [] := by
  refine ⟨rfl, rfl, ?_⟩
  decide

/-- The inspection raises nothing exactly when every joined unit captured no
exception. -/
theorem inspectPhase_false_iff (us : List RankUnit) :
    (inspectPhase us).2 = false ↔ ∀ u ∈ us, u.exception = none := by
  induction us with
  | nil => simp [inspectPhase]
  | cons u us ih =>
    match h : u.exception with
    | some e => simp [inspectPhase, h]
    | none => simp [inspectPhase, h, ih]

/-- Claim C5, amended: the in-flight list is empty at the start of every
iteration and empty again at the end of every iteration that does not raise;
an iteration raises iff some launched unit captured a failure, and such an
iteration ends with the launched units still in the list (they are cleared
only later, by `stop()`'s `killall`). -/
theorem iteration_scrubbers_empty_amended (ranks : List Nat)
    (exc : Nat → Option String) :
    ((doScrubIteration ranks exc).2.1 = false →
      (doScrubIteration ranks exc).1 = []) ∧
    ((doScrubIteration ranks exc).2.1 = true →
      (doScrubIteration ranks exc).1 = (launchPhase exc ranks).1) ∧
    ((doScrubIteration ranks exc).2.1 = false ↔
      ∀ u ∈ (launchPhase exc ranks).1, u.exception = none) := by
  by_cases h : (inspectPhase (launchPhase exc ranks).1).2 = true
  · refine ⟨?_, ?_, ?_⟩
    · intro hf; rw [doScrubIteration] at hf; simp [h] at hf
    · intro _; simp [doScrubIteration, h]
    · rw [doScrubIteration]
      simp only [h, if_true]
      simp only [← inspectPhase_false_iff]
      simp [h]
  · rw [Bool.not_eq_true] at h
    refine ⟨?_, ?_, ?_⟩
    · intro _; simp [doScrubIteration, h]
    · intro ht; rw [doScrubIteration] at ht; simp [h] at ht
    · rw [doScrubIteration]
      simp only [h, if_false]
      simp only [← inspectPhase_false_iff]
      simp [h]

/-- Concrete instance of the amended C5: two clean ranks end the iteration
with an empty list and no raise. -/
theorem iteration_scrubbers_empty_amended_wit :
    (doScrubIteration [0, 1] fun _ => none).2.1 = false ∧
    (doScrubIteration [0, 1] fun _ => none).1 = [] :=
  ⟨rfl, (iteration_scrubbers_empty_amended [0, 1] fun _ => none).1 rfl⟩

/-- Recognizes a `start` event. -/
def isStartEv : CEvent → Bool
  | .start _ => true
  | _ => false

/-- Recognizes a `construct` event. -/
def isConstructEv : CEvent → Bool
  | .construct _ => true
  | _ => false

/-- Recognizes an `append` event. -/
def isAppendEv : CEvent → Bool
  | .append _ => true
  | _ => false

/-- Recognizes any fan-out event (construct, append or start). -/
def isLaunchEv : CEvent → Bool
  | .construct _ => true
  | .append _ => true
  | .start _ => true
  | _ => false

/-- Recognizes an exception-inspection event. -/
def isInspectEv : CEvent → Bool
  | .inspect _ => true
  | _ => false

/-- The fan-out phase emits exactly one `construct`, one `append` and one
`start` event per discovered rank, and nothing else. -/
theorem launchPhase_counts (exc : Nat → Option String) (ranks : List Nat) :
    List.countP isStartEv (launchPhase exc ranks).2 = ranks.length ∧
    List.countP isConstructEv (launchPhase exc ranks).2 = ranks.length ∧
    List.countP isAppendEv (launchPhase exc ranks).2 = ranks.length ∧
    (∀ e ∈ (launchPhase exc ranks).2, isLaunchEv e = true) := by
  induction ranks with
  | nil => simp [launchPhase]
  | cons r rs ih =>
    obtain ⟨h1, h2, h3, h4⟩ := ih
    refine ⟨?_, ?_, ?_, ?_⟩
    · simp [launchPhase, List.countP_cons, isStartEv, h1]
    · simp [launchPhase, List.countP_cons, isConstructEv, h2]
    · simp [launchPhase, List.countP_cons, isAppendEv, h3]
    · intro e he
      simp only [launchPhase, List.mem_cons] at he
      rcases he with rfl | rfl | rfl | he
      · rfl
      · rfl
      · rfl
      · exact h4 e he

/-- The inspection phase emits only `inspect` events. -/
theorem inspectPhase_all_inspect (us : List RankUnit) :
    ∀ e ∈ (inspectPhase us).1, isInspectEv e = true := by
  induction us with
  | nil => simp [inspectPhase]
  | cons u us ih =>
    intro e he
    match h : u.exception with
    | some x =>
      simp only [inspectPhase, h, List.mem_singleton] at he
      subst he; rfl
    | none =>
      simp only [inspectPhase, h, List.mem_cons] at he
      rcases he with rfl | he
      · rfl
      · exact ih e he

/-- Claim C9: in every coordinator iteration that discovers `ranks`, the event
trace splits as `L ++ joinAll :: R` where the fan-out segment `L` holds
exactly one construct, one append and one start per rank and nothing but
launch events (so every start precedes the join and no failure is observed
before it), and every exception inspection lies in `R`, after the join.  The
coordinator reaches the next iteration (`clearList`, `sleepBetween`) only
past the `joinAll` barrier. -/
theorem iteration_fanout_before_join (ranks : List Nat)
    (exc : Nat → Option String) :
    ∃ L R, (doScrubIteration ranks exc).2.2 = L ++ CEvent.joinAll :: R ∧
      List.countP isStartEv L = ranks.length ∧
      List.countP isConstructEv L = ranks.length ∧
      List.countP isAppendEv L = ranks.length ∧
      (∀ e ∈ L, isLaunchEv e = true) ∧
      (∀ e ∈ L, isInspectEv e = false) ∧
      (∀ e ∈ R, isStartEv e = false) := by
  obtain ⟨h1, h2, h3, h4⟩ := launchPhase_counts exc ranks
  have hNoInspect : ∀ e ∈ (launchPhase exc ranks).2, isInspectEv e = false := by
    intro e he
    have := h4 e he
    cases e <;> simp_all [isLaunchEv, isInspectEv]
  by_cases hr : (inspectPhase (launchPhase exc ranks).1).2 = true
  · refine ⟨(launchPhase exc ranks).2,
      (inspectPhase (launchPhase exc ranks).1).1, ?_, h1, h2, h3, h4,
      hNoInspect, ?_⟩
    · simp [doScrubIteration, hr]
    · intro e he
      have := inspectPhase_all_inspect (launchPhase exc ranks).1 e he
      cases e <;> simp_all [isInspectEv, isStartEv]
  · rw [Bool.not_eq_true] at hr
    refine ⟨(launchPhase exc ranks).2,
      (inspectPhase (launchPhase exc ranks).1).1
        ++ [CEvent.clearList, CEvent.sleepBetween], ?_, h1, h2, h3, h4,
      hNoInspect, ?_⟩
    · simp [doScrubIteration, hr]
    · intro e he
      rcases List.mem_append.mp he with he | he
      · have := inspectPhase_all_inspect (launchPhase exc ranks).1 e he
        cases e <;> simp_all [isInspectEv, isStartEv]
      · rcases List.mem_cons.mp he with rfl | he
        · rfl
        · rcases List.mem_singleton.mp he with rfl
          rfl

/-- An entry of `ctx.ceph[cluster].thrashers`: either a `ForwardScrubber` or
some other kind of thrasher (identified by an opaque id). -/
inductive Thr where
  | fwd (s : FwdState)
  | other (id : Nat)
deriving DecidableEq

/-- Kinds of actions `stop_all_fwd_scrubbers` can take on a thrasher. -/
inductive TKind where
  | stopped
  | inspected
  | joined
deriving DecidableEq

/-- One action taken on the thrasher at position `idx` of the list. -/
structure TEvent where
  kind : TKind
  idx : Nat
deriving DecidableEq

/-- Worker for `stop_all_fwd_scrubbers`, carrying the absolute position `i`
of the list head.  Per the source: skip non-`ForwardScrubber` entries; call
`thrasher.stop()`; then, if `thrasher.exception is not None`, raise
`RuntimeError` immediately — ending the whole loop, so the remaining
thrashers are returned untouched and the failing one is never joined;
otherwise join and continue.  Returns the final thrasher states, the actions
taken, and the raised error message (if any). -/
def stopAllAux : Nat → List Thr → List Thr × List TEvent × Option String
  | _, [] => ([], [], none)
  | i, .other o :: ts =>
    (.other o :: (stopAllAux (i + 1) ts).1,
     (stopAllAux (i + 1) ts).2.1,
     (stopAllAux (i + 1) ts).2.2)
  | i, .fwd s :: ts =>
    match s.exception with
    | some e =>
      (.fwd (fwdStop s) :: ts,
       [⟨.stopped, i⟩, ⟨.inspected, i⟩],
       some ("error during scrub thrashing: " ++ e))
    | none =>
      (.fwd (fwdStop s) :: (stopAllAux (i + 1) ts).1,
       ⟨.stopped, i⟩ :: ⟨.inspected, i⟩ :: ⟨.joined, i⟩
         :: (stopAllAux (i + 1) ts).2.1,
       (stopAllAux (i + 1) ts).2.2)

/-- `stop_all_fwd_scrubbers(thrashers)`. -/
def stopAllFwdScrubbers (thrashers : List Thr) :
    List Thr × List TEvent × Option String :=
  stopAllAux 0 thrashers

/-- The action `stop_all_fwd_scrubbers` takes on one thrasher, lifted to the
whole list: `stop()` on a `ForwardScrubber`, nothing on anything else. -/
def stopThr : Thr → Thr
  | .fwd s => .fwd (fwdStop s)
  | .other o => .other o

/-- A thrasher entry is clean when it is not a `ForwardScrubber` holding a
captured exception. -/
def thrClean : Thr → Bool
  | .fwd s => s.exception.isNone
  | .other _ => true

/-- The actions taken on a list of clean thrashers starting at position `i`:
each `ForwardScrubber` is stopped, inspected and joined; others are skipped. -/
def cleanEvents : List Thr → Nat → List TEvent
  | [], _ => []
  | .other _ :: ts, i => cleanEvents ts (i + 1)
  | .fwd _ :: ts, i =>
    ⟨.stopped, i⟩ :: ⟨.inspected, i⟩ :: ⟨.joined, i⟩ :: cleanEvents ts (i + 1)

/-- Claim C4, counterexample: with two registered coordinators where the
first holds a captured failure, `stop_all_fwd_scrubbers` raises the
`RuntimeError` right after stopping the first one — the second coordinator is
never stopped (its `stopping` flag stays `false`), never inspected and never
joined, contradicting "calls stop() on every coordinator before surfacing any
captured failure". -/
theorem stopAll_failure_skips_rest_cex :
    stopAllFwdScrubbers
        [.fwd ⟨false, [], some "boom", 300, 1⟩,
         .fwd ⟨false, [⟨1, false⟩], none, 300, 1⟩]
      = ([.fwd ⟨true, [], some "boom", 300, 1⟩,
          .fwd ⟨false, [⟨1, false⟩], none, 300, 1⟩],
         [⟨.stopped, 0⟩, ⟨.inspected, 0⟩],
         some "error during scrub thrashing: boom") ∧
    TEvent.mk .stopped 1 ∉
      (stopAllFwdScrubbers
        [.fwd ⟨false, [], some "boom", 300, 1⟩,
         .fwd ⟨false, [⟨1, false⟩], none, 300, 1⟩]).2.1 := by
  constructor
  · rfl
  · decide

/-- Unfolding `stopAllAux` along a clean list: every `ForwardScrubber` before
the first failing one is stopped, inspected and joined; at the first
`ForwardScrubber` whose exception slot is set, the stop happens, the raise
fires, and everything after it is left untouched. -/
theorem stopAllAux_first_failure (s : FwdState) (e : String) (post : List Thr)
    (hs : s.exception = some e) :
    ∀ (pre : List Thr) (i : Nat), pre.all thrClean = true →
    stopAllAux i (pre ++ .fwd s :: post)
      = (pre.map stopThr ++ .fwd (fwdStop s) :: post,
         cleanEvents pre i
           ++ [⟨.stopped, i + pre.length⟩, ⟨.inspected, i + pre.length⟩],
         some ("error during scrub thrashing: " ++ e)) := by
  intro pre
  induction pre with
  | nil =>
    intro i _
    simp [stopAllAux, hs, cleanEvents]
  | cons t pre ih =>
    intro i hclean
    rw [List.all_cons, Bool.and_eq_true] at hclean
    obtain ⟨ht, hpre⟩ := hclean
    match t with
    | .other o =>
      have harith : i + 1 + pre.length = i + (pre.length + 1) := by omega
      simp only [List.cons_append, stopAllAux, List.append_eq,
        ih (i + 1) hpre, cleanEvents, List.map_cons, stopThr,
        List.length_cons, harith]
    | .fwd u =>
      have hu : u.exception = none := by
        simpa [thrClean, Option.isNone_iff_eq_none] using ht
      have harith : i + 1 + pre.length = i + (pre.length + 1) := by omega
      simp only [List.cons_append, stopAllAux, hu, List.append_eq,
        ih (i + 1) hpre, cleanEvents, List.map_cons, stopThr,
        List.length_cons, harith]

/-- Claim C4, amended: `stop_all_fwd_scrubbers` walks the thrashers in order,
stopping, inspecting and joining each clean `ForwardScrubber`; at the first
coordinator whose captured-exception slot is set it calls `stop()` on that
coordinator and then immediately raises the single run-ending `RuntimeError`
("error during scrub thrashing: ..."), without joining it and without
stopping, inspecting or joining any later thrasher. -/
theorem stopAll_first_failure_amended (pre : List Thr) (s : FwdState)
    (e : String) (post : List Thr) (hclean : pre.all thrClean = true)
    (hs : s.exception = some e) :
    stopAllFwdScrubbers (pre ++ .fwd s :: post)
      = (pre.map stopThr ++ .fwd (fwdStop s) :: post,
         cleanEvents pre 0 ++ [⟨.stopped, pre.length⟩, ⟨.inspected, pre.length⟩],
         some ("error during scrub thrashing: " ++ e)) := by
  have := stopAllAux_first_failure s e post hs pre 0 hclean
  simpa [stopAllFwdScrubbers] using this

/-- Concrete instance of the amended C4: a clean coordinator and a skipped
foreign thrasher before the failing coordinator, one thrasher after it. -/
theorem stopAll_first_failure_amended_wit :
    stopAllFwdScrubbers
        [.other 5, .fwd ⟨false, [], none, 300, 1⟩,
         .fwd ⟨false, [], some "x", 300, 1⟩, .other 9]
      = ([.other 5, .fwd ⟨true, [], none, 300, 1⟩,
          .fwd ⟨true, [], some "x", 300, 1⟩, .other 9],
         [⟨.stopped, 1⟩, ⟨.inspected, 1⟩, ⟨.joined, 1⟩,
          ⟨.stopped, 2⟩, ⟨.inspected, 2⟩],
         some "error during scrub thrashing: x") := by
  have := stopAll_first_failure_amended
    [.other 5, .fwd ⟨false, [], none, 300, 1⟩] ⟨false, [], some "x", 300, 1⟩
    "x" [.other 9] (by decide) (by decide)
  simpa [stopThr, fwdStop, cleanEvents] using this

/-- Every action recorded while processing the tail starting at position `i`
concerns a position at or past `i`. -/
theorem stopAllAux_idx_ge (ts : List Thr) :
    ∀ i, ∀ ev ∈ (stopAllAux i ts).2.1, i ≤ ev.idx := by
  induction ts with
  | nil => intro i ev hev; simp [stopAllAux] at hev
  | cons t ts ih =>
    intro i ev hev
    match t with
    | .other o =>
      simp only [stopAllAux] at hev
      exact Nat.le_of_succ_le (ih (i + 1) ev hev)
    | .fwd s =>
      cases hs : s.exception with
      | some e =>
        simp only [stopAllAux, hs, List.mem_cons, List.not_mem_nil,
          or_false] at hev
        rcases hev with rfl | rfl <;> exact Nat.le_refl i
      | none =>
        simp only [stopAllAux, hs, List.mem_cons] at hev
        rcases hev with rfl | rfl | rfl | hev
        · exact Nat.le_refl i
        · exact Nat.le_refl i
        · exact Nat.le_refl i
        · exact Nat.le_of_succ_le (ih (i + 1) ev hev)

/-- A non-`ForwardScrubber` entry at position `j` survives `stopAllAux`
unchanged, and no recorded action concerns its position. -/
theorem stopAllAux_other_untouched (ts : List Thr) :
    ∀ i j o, ts[j]? = some (.other o) →
      (stopAllAux i ts).1[j]? = some (.other o) ∧
      ∀ ev ∈ (stopAllAux i ts).2.1, ev.idx ≠ i + j := by
  induction ts with
  | nil => intro i j o h; simp at h
  | cons t ts ih =>
    intro i j o h
    match j with
    | 0 =>
      rw [List.getElem?_cons_zero, Option.some_inj] at h
      subst h
      constructor
      · simp [stopAllAux]
      · intro ev hev
        simp only [stopAllAux] at hev
        have := stopAllAux_idx_ge ts (i + 1) ev hev
        omega
    | k + 1 =>
      rw [List.getElem?_cons_succ] at h
      match t with
      | .other o₁ =>
        obtain ⟨h1, h2⟩ := ih (i + 1) k o h
        constructor
        · simpa [stopAllAux] using h1
        · intro ev hev
          simp only [stopAllAux] at hev
          have := h2 ev hev
          omega
      | .fwd s =>
        cases hs : s.exception with
        | some e =>
          constructor
          · simpa [stopAllAux, hs] using h
          · intro ev hev
            simp only [stopAllAux, hs, List.mem_cons, List.not_mem_nil,
              or_false] at hev
            rcases hev with rfl | rfl <;> simp
        | none =>
          obtain ⟨h1, h2⟩ := ih (i + 1) k o h
          constructor
          · simpa [stopAllAux, hs] using h1
          · intro ev hev
            simp only [stopAllAux, hs, List.mem_cons] at hev
            rcases hev with rfl | rfl | rfl | hev
            · simp
            · simp
            · simp
            · have := h2 ev hev
              omega

/-- Claim C10: `stop_all_fwd_scrubbers` leaves every thrasher that is not a
`ForwardScrubber` entirely untouched — its entry in the list is unchanged and
no stop, exception inspection or join is ever performed at its position. -/
theorem stopAll_frame_other_untouched (ts : List Thr) (j : Nat) (o : Nat)
    (h : ts[j]? = some (.other o)) :
    (stopAllFwdScrubbers ts).1[j]? = some (.other o) ∧
    ∀ ev ∈ (stopAllFwdScrubbers ts).2.1, ev.idx ≠ j := by
  obtain ⟨h1, h2⟩ := stopAllAux_other_untouched ts 0 j o h
  refine ⟨h1, ?_⟩
  intro ev hev
  have := h2 ev hev
  omega

/-- Concrete instance of C10: a foreign thrasher listed after a coordinator
is untouched and never acted on. -/
theorem stopAll_frame_other_untouched_wit :
    (stopAllFwdScrubbers [.fwd ⟨false, [], none, 300, 1⟩, .other 7]).1[1]?
        = some (.other 7) ∧
    ∀ ev ∈ (stopAllFwdScrubbers
        [.fwd ⟨false, [], none, 300, 1⟩, .other 7]).2.1, ev.idx ≠ 1 :=
  stopAll_frame_other_untouched [.fwd ⟨false, [], none, 300, 1⟩, .other 7]
    1 7 rfl

/-- The configuration dict handed to the `task` entry point: each recognized
key is either present (`some`) or omitted (`none`). -/
structure TaskConfig where
  scrub_timeout : Option Nat
  sleep_between_iterations : Option Nat
  cluster : Option String
deriving DecidableEq

/-- `ForwardScrubber.__init__`: fresh state with the stopping event clear, an
empty scrubbers list and no captured exception.  The Python signature
declares defaults `scrub_timeout=300` and `sleep_between_iterations=1`, but
the `task` entry point always passes both arguments explicitly. -/
def forwardScrubberInit (scrub_timeout sleep_between_iterations : Nat) :
    FwdState :=
  { stopping := false, scrubbers := [], exception := none,
    scrub_timeout := scrub_timeout,
    sleep_between_iterations := sleep_between_iterations }

/-- Outcome of the coordinator-launching part of `task`. -/
inductive TaskResult where
  | started (scrubber : FwdState) (cluster : String)
  | keyError (key : String)
deriving DecidableEq

/-- The configuration handling of `task`: `if 'cluster' not in config:
config['cluster'] = 'ceph'`, then each coordinator is built with
`ForwardScrubber(fs, config['scrub_timeout'],
config['sleep_between_iterations'])` — two mandatory dict lookups, evaluated
left to right, each raising `KeyError` when the key is absent. -/
def taskStart (config : TaskConfig) : TaskResult :=
  match config.scrub_timeout with
  | none => .keyError "scrub_timeout"
  | some st =>
    match config.sleep_between_iterations with
    | none => .keyError "sleep_between_iterations"
    | some sb => .started (forwardScrubberInit st sb) (config.cluster.getD "ceph")

/-- Claim C7, counterexample: a configuration that omits `scrub_timeout`
(or `sleep_between_iterations`) does not fall back to a default — the task
raises `KeyError` and no coordinator is started. -/
theorem task_omitted_timeout_keyError_cex :
    taskStart ⟨none, some 1, none⟩ = .keyError "scrub_timeout" ∧
    taskStart ⟨some 300, none, none⟩ = .keyError "sleep_between_iterations" := by
  constructor <;> rfl

/-- Claim C7, amended: an omitted `cluster` defaults to "ceph" and the
coordinators still start, but `scrub_timeout` and `sleep_between_iterations`
have no default at the `task` entry point — omitting either raises `KeyError`
before any coordinator starts (the defaults 300 and 1 exist only in the
`ForwardScrubber.__init__` signature, which `task` never relies on). -/
theorem task_defaults_amended (st sb : Nat) (c : String)
    (os : Option Nat) (oc : Option String) :
    taskStart ⟨some st, some sb, none⟩
        = .started (forwardScrubberInit st sb) "ceph" ∧
    taskStart ⟨some st, some sb, some c⟩
        = .started (forwardScrubberInit st sb) c ∧
    taskStart ⟨none, os, oc⟩ = .keyError "scrub_timeout" ∧
    taskStart ⟨some st, none, oc⟩ = .keyError "sleep_between_iterations" := by
  exact ⟨rfl, rfl, rfl, rfl⟩
